import Mathlib

/-!
Shallow embedding of `src/montecarlo/project.py` (classes `Die`, `Game`,
`Analyzer`) and proofs about it.

Modelling conventions:
* Python exceptions are the inductive `PyErr`; the spec's taxonomy maps
  `TypeKind` to `TypeError`, `ValidationError` to `ValueError`,
  `NotFoundError` to `IndexError`; `AttributeError` is kept separate.
* A pandas `Series` of weights indexed by faces is the pair of parallel
  lists `faces`/`w`; a wide `DataFrame` of results is a list of rows.
* Fractions stand in for Python floats (`ℚ`), faces are a type `α` with
  decidable equality (numbers or strings in the source).
* A mutating method is a function returning the new object together with
  `Option PyErr`: `none` means normal return, `some e` means the method
  raised `e`; the source raises before any field update in every branch
  translated with the original object returned unchanged.
* The weighted pseudorandom sampler behind `Series.sample` is abstracted
  by an index-choice oracle `pick : Nat → Nat`: each draw picks the face
  at position `pick j % faces.length`.  Every behaviour of the real
  sampler (which always returns members of the index) is a behaviour of
  this oracle, so membership/shape facts proved for all oracles hold of
  the program.  Draws are modelled for nonempty face lists only (pandas
  raises on an empty sample source).
-/

namespace MC

inductive PyErr where
  | typeError
  | valueError
  | indexError
  | attrError
deriving DecidableEq, Repr

/-- An argument handed to `Die.change_weight` as `new_weight`:
a Python `int`/`float` (`num`), a non-number that `float(...)` converts
(e.g. the string "2.5": `castable`), or one where `float(...)` raises
(`uncastable`, e.g. the string "hi"). -/
inductive WeightArg where
  | num (q : ℚ)
  | castable (q : ℚ)
  | uncastable
deriving DecidableEq

/-- The coercion block of `Die.change_weight`:
`isinstance(new_weight, (int, float))` passes `num` through, otherwise
`float(new_weight)` either converts or raises `TypeError`. -/
def coerceWeight : WeightArg → Except PyErr ℚ
  | .num q => .ok q
  | .castable q => .ok q
  | .uncastable => .error .typeError

/-- The `Die` object: `faces` (the NumPy array of face labels) and `w`
(the weight list backing the private Series `__die_df`, which is
`pd.Series(w, index=faces)`). -/
structure Die (α : Type) where
  faces : List α
  w : List ℚ
deriving DecidableEq

variable {α : Type}

/-- `Die.__init__`: rejects non-unique faces with `ValueError`
(`len(np.unique(faces)) != len(faces)`), then sets every weight to 1.
(The NumPy-array and dtype checks concern the host representation of
`faces` and are outside this value-level model.) -/
def Die.init [DecidableEq α] (faces : List α) : Except PyErr (Die α) :=
  if faces.dedup.length ≠ faces.length then .error .valueError
  else .ok ⟨faces, faces.map (fun _ => (1 : ℚ))⟩

/-- `self.__die_df[face] = new_weight` on `pd.Series(w, index=faces)`:
every position whose index label equals `face` gets the new weight
(faces are unique in a constructed die, so at most one). -/
def setW [DecidableEq α] (faces : List α) (w : List ℚ) (face : α) (q : ℚ) : List ℚ :=
  (faces.zip w).map (fun p => if p.1 = face then q else p.2)

/-- `Die.change_weight(face, new_weight)`, statement by statement:
membership test first (`IndexError` when absent), then numeric coercion
(`TypeError` on failure), then the sign check (`ValueError` when
negative), and only then the single Series update. -/
def Die.change_weight [DecidableEq α] (d : Die α) (face : α) (nw : WeightArg) :
    Die α × Option PyErr :=
  if face ∈ d.faces then
    match coerceWeight nw with
    | .error e => (d, some e)
    | .ok q =>
      if q < 0 then (d, some .valueError)
      else ({ d with w := setW d.faces d.w face q }, none)
  else (d, some .indexError)

/-- `Die.current_state()`: a copy of the Series, i.e. the label/weight
pairs in label order. -/
def Die.current_state (d : Die α) : List (α × ℚ) := d.faces.zip d.w

/-- Label-based lookup in a Series snapshot (first matching label). -/
def lookupW [DecidableEq α] : List (α × ℚ) → α → Option ℚ
  | [], _ => none
  | p :: rest, x => if p.1 = x then some p.2 else lookupW rest x

theorem lookupW_zip_setW [DecidableEq α] (face : α) (q : ℚ) :
    ∀ (faces : List α) (w : List ℚ), w.length = faces.length →
      (face ∈ faces → lookupW (faces.zip (setW faces w face q)) face = some q) ∧
      (∀ f, f ≠ face →
        lookupW (faces.zip (setW faces w face q)) f = lookupW (faces.zip w) f)
  | [], _, _ => by simp [setW, lookupW]
  | a :: fs, [], h => by simp at h
  | a :: fs, b :: ws, h => by
    have ih := lookupW_zip_setW face q fs ws (by simpa using h)
    constructor
    · intro hmem
      by_cases haf : a = face
      · subst haf
        simp [setW, lookupW]
      · have hmem' : face ∈ fs := by
          rcases List.mem_cons.mp hmem with h | h
          · exact absurd h.symm haf
          · exact h
        simpa [setW, lookupW, haf] using ih.1 hmem'
    · intro f hf
      by_cases haf : a = f
      · subst haf
        simp [setW, lookupW, fun h => hf h]
      · simpa [setW, lookupW, haf] using ih.2 f hf

theorem change_weight_fst_of_err [DecidableEq α] (d : Die α) (face : α)
    (nw : WeightArg) (e : PyErr) (h : (d.change_weight face nw).2 = some e) :
    (d.change_weight face nw).1 = d := by
  unfold Die.change_weight at *
  by_cases hmem : face ∈ d.faces
  · cases hc : coerceWeight nw with
    | error e' => simp [hmem, hc]
    | ok q =>
      by_cases hq : q < 0
      · simp [hmem, hc, hq]
      · simp [hmem, hc, hq] at h
  · simp [hmem]

/-- C7: after a successful `change_weight(face, q)` the Series maps
`face` to `q`, maps every other label to its old weight, and the face
sequence is unchanged. -/
theorem c7_set_weight_frame [DecidableEq α] (d : Die α) (face : α) (q : ℚ)
    (hlen : d.w.length = d.faces.length) (hmem : face ∈ d.faces) (hq : 0 ≤ q) :
    (d.change_weight face (.num q)).2 = none ∧
    (d.change_weight face (.num q)).1.faces = d.faces ∧
    lookupW (d.change_weight face (.num q)).1.current_state face = some q ∧
    (∀ f, f ≠ face →
      lookupW (d.change_weight face (.num q)).1.current_state f =
        lookupW d.current_state f) := by
  have hnot : ¬ q < 0 := not_lt.mpr hq
  have hzip := lookupW_zip_setW face q d.faces d.w hlen
  refine ⟨?_, ?_, ?_, ?_⟩
  · simp [Die.change_weight, hmem, coerceWeight, hnot]
  · simp [Die.change_weight, hmem, coerceWeight, hnot]
  · simpa [Die.change_weight, hmem, coerceWeight, hnot, Die.current_state]
      using hzip.1 hmem
  · intro f hf
    simpa [Die.change_weight, hmem, coerceWeight, hnot, Die.current_state]
      using hzip.2 f hf

theorem c7_set_weight_frame_witness :
    ((Die.mk ([1, 2, 3] : List ℤ) [1, 1, 1]).w.length =
      (Die.mk ([1, 2, 3] : List ℤ) [1, 1, 1]).faces.length) ∧
    ((2 : ℤ) ∈ (Die.mk [1, 2, 3] [1, 1, 1]).faces) ∧
    (((Die.mk ([1, 2, 3] : List ℤ) [1, 1, 1]).change_weight 2 (.num 5)).2 = none ∧
    ((Die.mk ([1, 2, 3] : List ℤ) [1, 1, 1]).change_weight 2 (.num 5)).1.faces =
      (Die.mk ([1, 2, 3] : List ℤ) [1, 1, 1]).faces ∧
    lookupW ((Die.mk ([1, 2, 3] : List ℤ) [1, 1, 1]).change_weight 2
        (.num 5)).1.current_state 2 = some 5 ∧
    (∀ f, f ≠ (2 : ℤ) →
      lookupW ((Die.mk ([1, 2, 3] : List ℤ) [1, 1, 1]).change_weight 2
          (.num 5)).1.current_state f =
        lookupW (Die.mk ([1, 2, 3] : List ℤ) [1, 1, 1]).current_state f)) :=
  ⟨by decide, by decide, c7_set_weight_frame (Die.mk [1, 2, 3] [1, 1, 1]) 2 5
    (by decide) (by decide) (by norm_num)⟩

/-- C8: `change_weight` raises `IndexError` exactly when the face is
absent; for a present face it raises `TypeError` exactly when the new
weight is not numeric and not castable, raises `ValueError` exactly when
the coerced weight is negative, returns normally exactly when the
coerced weight is non-negative (zero included), and the die is unchanged
on every raise. -/
theorem c8_change_weight_errors [DecidableEq α] (d : Die α) (face : α)
    (nw : WeightArg) :
    ((d.change_weight face nw).2 = some .indexError ↔ face ∉ d.faces) ∧
    ((d.change_weight face nw).2 = some .typeError ↔
      (face ∈ d.faces ∧ nw = .uncastable)) ∧
    ((d.change_weight face nw).2 = some .valueError ↔
      (face ∈ d.faces ∧ ∃ q, coerceWeight nw = .ok q ∧ q < 0)) ∧
    ((d.change_weight face nw).2 = none ↔
      (face ∈ d.faces ∧ ∃ q, coerceWeight nw = .ok q ∧ 0 ≤ q)) ∧
    (∀ e, (d.change_weight face nw).2 = some e →
      (d.change_weight face nw).1 = d) := by
  refine ⟨?_, ?_, ?_, ?_, fun e he => change_weight_fst_of_err d face nw e he⟩ <;>
    by_cases hmem : face ∈ d.faces <;> cases nw <;>
      simp [Die.change_weight, coerceWeight, hmem] <;> split_ifs <;>
        simp_all [le_of_lt, not_lt]

theorem c8_change_weight_errors_witness :
    (((Die.mk ([1, 2] : List ℤ) [1, 1]).change_weight 5 (.num 1)).2 =
        some .indexError ↔ (5 : ℤ) ∉ (Die.mk ([1, 2] : List ℤ) [1, 1]).faces) ∧
    (((Die.mk ([1, 2] : List ℤ) [1, 1]).change_weight 5 (.num 1)).2 =
        some .typeError ↔
      ((5 : ℤ) ∈ (Die.mk ([1, 2] : List ℤ) [1, 1]).faces ∧
        WeightArg.num 1 = .uncastable)) ∧
    (((Die.mk ([1, 2] : List ℤ) [1, 1]).change_weight 5 (.num 1)).2 =
        some .valueError ↔
      ((5 : ℤ) ∈ (Die.mk ([1, 2] : List ℤ) [1, 1]).faces ∧
        ∃ q, coerceWeight (.num 1) = .ok q ∧ q < 0)) ∧
    (((Die.mk ([1, 2] : List ℤ) [1, 1]).change_weight 5 (.num 1)).2 = none ↔
      ((5 : ℤ) ∈ (Die.mk ([1, 2] : List ℤ) [1, 1]).faces ∧
        ∃ q, coerceWeight (.num 1) = .ok q ∧ 0 ≤ q)) ∧
    (∀ e, ((Die.mk ([1, 2] : List ℤ) [1, 1]).change_weight 5 (.num 1)).2 = some e →
      ((Die.mk ([1, 2] : List ℤ) [1, 1]).change_weight 5 (.num 1)).1 =
        Die.mk ([1, 2] : List ℤ) [1, 1]) :=
  c8_change_weight_errors (Die.mk ([1, 2] : List ℤ) [1, 1]) 5 (.num 1)

/-- One element of the argument handed to `Game.__init__`: either a
`Die` object or a Python value of some other kind (which has no
`get_faces` attribute). -/
inductive DiceElem (α : Type) where
  | die (d : Die α)
  | other
deriving DecidableEq

/-- The argument of `Game.__init__`: a Python `list` of elements, or any
non-list value. -/
inductive DiceArg (α : Type) where
  | list (items : List (DiceElem α))
  | notList
deriving DecidableEq

/-- Attribute access `die.get_faces()` inside the comprehension
`[set(die.get_faces()) for die in dice_list]`: a non-`Die` element has
no such attribute, so Python raises `AttributeError`. -/
def DiceElem.getFaces : DiceElem α → Except PyErr (List α)
  | .die d => .ok d.faces
  | .other => .error .attrError

/-- The comprehension `[set(die.get_faces()) for die in dice_list]`:
the first failing attribute access aborts the whole construction. -/
def facesSets : List (DiceElem α) → Except PyErr (List (List α))
  | [] => .ok []
  | e :: rest =>
    match e.getFaces with
    | .error err => .error err
    | .ok fs =>
      match facesSets rest with
      | .error err => .error err
      | .ok l => .ok (fs :: l)

/-- Equality of the Python `set`s of two label lists. -/
def setEqB [DecidableEq α] (l1 l2 : List α) : Bool :=
  l1.all (fun x => decide (x ∈ l2)) && l2.all (fun x => decide (x ∈ l1))

/-- The `Game` object: the private dice list, the private wide result
table `__play_df` (a list of rows; `pd.DataFrame()` i.e. `[]` until the
first play), and `times` (the attribute `self.times`, set only by a
successful `play`, so `none` models the attribute being absent). -/
structure Game (α : Type) where
  dice_list : List (Die α)
  play_df : List (List α)
  times : Option Nat
deriving DecidableEq

def extractDice : List (DiceElem α) → List (Die α) :=
  fun items => items.filterMap (fun e => match e with | .die d => some d | .other => none)

/-- `Game.__init__(dice_list)`: `TypeError` when the argument is not a
list; then the face-set comprehension runs (raising `AttributeError` at
the first non-`Die` element); then `ValueError` unless every face set
equals the first one (`all(faces == faces_list[0] ...)`, vacuously true
for an empty list because the generator is never forced). -/
def Game.init [DecidableEq α] (arg : DiceArg α) : Except PyErr (Game α) :=
  match arg with
  | .notList => .error .typeError
  | .list items =>
    match facesSets items with
    | .error e => .error e
    | .ok fl =>
      if fl.all (fun fs => setEqB fs (fl.headD [])) then
        .ok ⟨extractDice items, [], none⟩
      else .error .valueError

/-- C9 (code bug): the claim and `Game.__init__`'s own docstring promise
`TypeError` for a list whose elements are not `Die` objects, but on the
concrete input `Game([1])` the comprehension's `die.get_faces()` raises
`AttributeError` instead; a genuine non-list still gets `TypeError` and
mismatched face sets still get `ValueError`. -/
theorem c9_game_init_wrong_elem_kind :
    Game.init (α := ℤ) (.list [.other]) = .error .attrError ∧
    PyErr.attrError ≠ PyErr.typeError ∧
    Game.init (α := ℤ) .notList = .error .typeError ∧
    Game.init (α := ℤ)
        (.list [.die (Die.mk [1, 2, 3] [1, 1, 1]),
                .die (Die.mk [1, 2, 4] [1, 1, 1])]) = .error .valueError := by
  refine ⟨rfl, by decide, rfl, ?_⟩
  rfl

/-- The `times` argument of `Die.roll_time` / `Game.play`: a Python
`int`, or a value of any other type (`isinstance(times, int)` fails). -/
inductive TimesArg where
  | int (m : ℤ)
  | nonInt
deriving DecidableEq

/-- One weighted draw of `__die_df.sample`: the oracle value `k`
selects the face at position `k % len(faces)` (see the header comment;
only nonempty face lists model the real sampler). -/
def Die.drawAt [Inhabited α] (d : Die α) (k : Nat) : α :=
  d.faces.getD (k % d.faces.length) default

/-- The list of `n` draws that a successful `roll_time(n)` returns. -/
def Die.rollList [Inhabited α] (d : Die α) (n : Nat) (pick : Nat → Nat) : List α :=
  (List.range n).map (fun j => d.drawAt (pick j))

/-- `Die.roll_time(times)`: `ValueError` unless `times` is a positive
`int`, then the sampled outcome list. -/
def Die.roll_time [Inhabited α] (d : Die α) (times : TimesArg)
    (pick : Nat → Nat) : Except PyErr (List α) :=
  match times with
  | .nonInt => .error .valueError
  | .int m =>
    if m ≤ 0 then .error .valueError
    else .ok (d.rollList m.toNat pick)

/-- `Game.play(times)`: the positivity/type check raises `ValueError`
before any field is touched; on success the prior `__play_df` is
discarded and rebuilt from scratch — the source assigns each die's
`roll_time` list as column `i` and relabels rows `1..n` and columns
`1..g`; here the same wide table is assembled as its list of rows
(row `r`, 0-based, models round `r+1`). -/
def Game.play [Inhabited α] (g : Game α) (times : TimesArg)
    (pick : Nat → Nat → Nat) : Game α × Option PyErr :=
  match times with
  | .nonInt => (g, some .valueError)
  | .int m =>
    if m ≤ 0 then (g, some .valueError)
    else
      let n := m.toNat
      let cols := g.dice_list.enum.map (fun p => p.2.rollList n (pick p.1))
      let table := (List.range n).map (fun r => cols.map (fun c => c.getD r default))
      ({ g with play_df := table, times := some n }, none)

theorem getD_map_range {β : Type} (f : Nat → β) (d : β) {r n : Nat} (hr : r < n) :
    ((List.range n).map f).getD r d = f r := by
  simp [List.getD_eq_getElem?_getD, List.getElem?_map,
    List.getElem?_range hr]

theorem drawAt_mem [Inhabited α] (d : Die α) (k : Nat) (h : d.faces ≠ []) :
    d.drawAt k ∈ d.faces := by
  have hlen : 0 < d.faces.length := List.length_pos.mpr h
  have hk : k % d.faces.length < d.faces.length := Nat.mod_lt _ hlen
  have : d.faces.getD (k % d.faces.length) default =
      d.faces.get ⟨k % d.faces.length, hk⟩ := by
    simp [List.getD_eq_getElem?_getD, List.getElem?_eq_getElem hk]
  rw [Die.drawAt, this]
  exact List.get_mem _ _ _

theorem setEqB_true_iff [DecidableEq α] (l1 l2 : List α) :
    setEqB l1 l2 = true ↔ ((∀ x ∈ l1, x ∈ l2) ∧ (∀ x ∈ l2, x ∈ l1)) := by
  simp [setEqB, List.all_eq_true]

theorem facesSets_ok [DecidableEq α] :
    ∀ (items : List (DiceElem α)) (fl : List (List α)),
      facesSets items = .ok fl → fl = (extractDice items).map Die.faces
  | [], fl, h => by
    simp [facesSets] at h
    simp [extractDice, ← h]
  | e :: rest, fl, h => by
    cases e with
    | die d =>
      cases hrest : facesSets rest with
      | error err => simp [facesSets, DiceElem.getFaces, hrest] at h
      | ok l =>
        have := facesSets_ok rest l hrest
        simp [facesSets, DiceElem.getFaces, hrest] at h
        simp [extractDice, ← h, this]
    | other => simp [facesSets, DiceElem.getFaces] at h

/-- Constructed games have pairwise set-equal face lists. -/
theorem game_init_shared_faces [DecidableEq α] (items : List (DiceElem α))
    (g : Game α) (h : Game.init (.list items) = .ok g) :
    ∀ d1 ∈ g.dice_list, ∀ d2 ∈ g.dice_list, ∀ x ∈ d1.faces, x ∈ d2.faces := by
  intro d1 h1 d2 h2 x hx
  cases hfs : facesSets items with
  | error e => simp [Game.init, hfs] at h
  | ok fl =>
    simp only [Game.init, hfs] at h
    by_cases hall : (fl.all fun fs => setEqB fs (fl.headD [])) = true
    · rw [if_pos hall] at h
      cases h
      have hfl := facesSets_ok items fl hfs
      have hmem1 : d1.faces ∈ fl := by
        rw [hfl]; exact List.mem_map_of_mem Die.faces h1
      have hmem2 : d2.faces ∈ fl := by
        rw [hfl]; exact List.mem_map_of_mem Die.faces h2
      have e1 := (setEqB_true_iff _ _).mp (List.all_eq_true.mp hall _ hmem1)
      have e2 := (setEqB_true_iff _ _).mp (List.all_eq_true.mp hall _ hmem2)
      exact e2.2 x (e1.1 x hx)
    · rw [if_neg hall] at h
      exact absurd h (by simp)

/-- C5: for a constructed game whose dice have nonempty face lists and a
positive integer `n`, `play(n)` succeeds, fully replaces the table with
one of exactly `n` rows and `len(dice)` columns whose every cell lies in
every die's face set (the shared label set), independently of the prior
table; a non-positive or non-integer `times` raises `ValueError` with
the game left untouched. -/
theorem c5_play_table_shape [DecidableEq α] [Inhabited α]
    (items : List (DiceElem α)) (g : Game α)
    (hinit : Game.init (.list items) = .ok g)
    (hne : ∀ d ∈ g.dice_list, d.faces ≠ [])
    (n : ℤ) (hn : 0 < n) (pick : Nat → Nat → Nat) :
    (g.play (.int n) pick).2 = none ∧
    (g.play (.int n) pick).1.play_df.length = n.toNat ∧
    (g.play (.int n) pick).1.times = some n.toNat ∧
    (∀ row ∈ (g.play (.int n) pick).1.play_df,
      row.length = g.dice_list.length ∧
      ∀ c ∈ row, ∀ d ∈ g.dice_list, c ∈ d.faces) ∧
    (∀ t' : List (List α),
      (Game.play { g with play_df := t' } (.int n) pick).1.play_df =
        (g.play (.int n) pick).1.play_df) ∧
    (g.play .nonInt pick = (g, some .valueError)) ∧
    (∀ m : ℤ, m ≤ 0 → g.play (.int m) pick = (g, some .valueError)) := by
  have hnot : ¬ n ≤ 0 := not_le.mpr hn
  refine ⟨by simp [Game.play, hnot], by simp [Game.play, hnot],
    by simp [Game.play, hnot], ?_, by intro t'; simp [Game.play, hnot],
    rfl, by intro m hm; simp [Game.play, hm]⟩
  intro row hrow
  simp only [Game.play, hnot, if_false] at hrow
  simp only [List.mem_map, List.mem_range] at hrow
  obtain ⟨r, hr, hrow⟩ := hrow
  constructor
  · simp [← hrow]
  · intro c hc d hd
    rw [← hrow] at hc
    simp only [List.mem_map] at hc
    obtain ⟨col, hcol, hcell⟩ := hc
    obtain ⟨p, hp, hcoldef⟩ := hcol
    obtain ⟨i, pd⟩ := p
    have hget := List.mk_mem_enum_iff_getElem?.mp hp
    have hpd : pd ∈ g.dice_list := by
      obtain ⟨hlt, heq⟩ := List.getElem?_eq_some.mp hget
      exact heq ▸ List.getElem_mem hlt
    have hcol_r : col.getD r default = pd.drawAt (pick i r) := by
      rw [← hcoldef, Die.rollList]
      exact getD_map_range _ _ hr
    have hmem : col.getD r default ∈ pd.faces := by
      rw [hcol_r]
      exact drawAt_mem _ _ (hne _ hpd)
    rw [hcell] at hmem
    exact game_init_shared_faces items g hinit pd hpd d hd c hmem

theorem c5_play_table_shape_witness :
    (((Game.mk [Die.mk ([1, 2] : List ℤ) [1, 1], Die.mk [2, 1] [1, 1]] [] none).play
        (.int 2) (fun _ _ => 0)).2 = none ∧
    ((Game.mk [Die.mk ([1, 2] : List ℤ) [1, 1], Die.mk [2, 1] [1, 1]] [] none).play
        (.int 2) (fun _ _ => 0)).1.play_df.length = (2 : ℤ).toNat ∧
    ((Game.mk [Die.mk ([1, 2] : List ℤ) [1, 1], Die.mk [2, 1] [1, 1]] [] none).play
        (.int 2) (fun _ _ => 0)).1.times = some (2 : ℤ).toNat ∧
    (∀ row ∈ ((Game.mk [Die.mk ([1, 2] : List ℤ) [1, 1], Die.mk [2, 1] [1, 1]] []
          none).play (.int 2) (fun _ _ => 0)).1.play_df,
      row.length = (Game.mk [Die.mk ([1, 2] : List ℤ) [1, 1], Die.mk [2, 1] [1, 1]]
          [] none).dice_list.length ∧
      ∀ c ∈ row, ∀ d ∈ (Game.mk [Die.mk ([1, 2] : List ℤ) [1, 1],
          Die.mk [2, 1] [1, 1]] [] none).dice_list, c ∈ d.faces) ∧
    (∀ t' : List (List ℤ),
      (Game.play { Game.mk [Die.mk ([1, 2] : List ℤ) [1, 1], Die.mk [2, 1] [1, 1]]
            [] none with play_df := t' } (.int 2) (fun _ _ => 0)).1.play_df =
        ((Game.mk [Die.mk ([1, 2] : List ℤ) [1, 1], Die.mk [2, 1] [1, 1]] []
            none).play (.int 2) (fun _ _ => 0)).1.play_df) ∧
    ((Game.mk [Die.mk ([1, 2] : List ℤ) [1, 1], Die.mk [2, 1] [1, 1]] [] none).play
        .nonInt (fun _ _ => 0) =
      (Game.mk [Die.mk ([1, 2] : List ℤ) [1, 1], Die.mk [2, 1] [1, 1]] [] none,
        some .valueError)) ∧
    (∀ m : ℤ, m ≤ 0 →
      (Game.mk [Die.mk ([1, 2] : List ℤ) [1, 1], Die.mk [2, 1] [1, 1]] [] none).play
          (.int m) (fun _ _ => 0) =
        (Game.mk [Die.mk ([1, 2] : List ℤ) [1, 1], Die.mk [2, 1] [1, 1]] [] none,
          some .valueError))) :=
  c5_play_table_shape
    [.die (Die.mk ([1, 2] : List ℤ) [1, 1]), .die (Die.mk [2, 1] [1, 1])]
    (Game.mk [Die.mk ([1, 2] : List ℤ) [1, 1], Die.mk [2, 1] [1, 1]] [] none)
    (by rfl) (by decide) 2 (by decide) (fun _ _ => 0)

/-- `Game.show_results(1)`: `return self.__play_df.copy()` — the wide
table's value.  (The narrow reshape of `wide=0` is not consumed by any
component modelled here.) -/
def Game.show_results_wide (g : Game α) : List (List α) := g.play_df

/-- `Game.get_event_number()`: `return self.times`; before the first
successful `play` the attribute does not exist, so the access raises
`AttributeError`. -/
def Game.get_event_number (g : Game α) : Except PyErr Nat :=
  match g.times with
  | none => .error .attrError
  | some n => .ok n

/-- `Game.get_dice_faces()`: `self.__dice_list[0].get_faces()` — raises
`IndexError` on an empty dice list. -/
def Game.get_dice_faces (g : Game α) : Except PyErr (List α) :=
  match g.dice_list with
  | [] => .error .indexError
  | d :: _ => .ok d.faces

/-- The argument handed to `Analyzer.__init__`: a `Game` object or a
Python value of any other type. -/
inductive GameArg (α : Type) where
  | game (g : Game α)
  | notGame

/-- The `Analyzer` object: the snapshot fields set by `__init__`
(`results`, `faces`, `event_number`) plus the instance attributes that
later method calls create — `jackpot` (which shadows the method of the
same name; `none` models the attribute being absent) and
`face_counter`. -/
structure Analyzer (α : Type) where
  results : List (List α)
  faces : List α
  event_number : Nat
  jackpotBound : Option (List Bool) := none
  face_counterBound : Option (List (List Nat)) := none

/-- `Analyzer.__init__(game)`: `ValueError` for a non-`Game` argument;
then `self.results = game.show_results(1)` (a copy, never failing),
then `game.get_dice_faces()` (`IndexError` on an empty dice list), then
`game.get_event_number()` (`AttributeError` when the session was never
played). -/
def Analyzer.init (arg : GameArg α) : Except PyErr (Analyzer α) :=
  match arg with
  | .notGame => .error .valueError
  | .game g =>
    let results := g.show_results_wide
    match g.get_dice_faces with
    | .error e => .error e
    | .ok faces =>
      match g.get_event_number with
      | .error e => .error e
      | .ok n => .ok ⟨results, faces, n, none, none⟩

theorem c4_analyzer_unplayed_counterexample :
    Game.init (α := ℤ) (.list [.die (Die.mk [1, 2, 3] [1, 1, 1])]) =
      .ok (Game.mk [Die.mk ([1, 2, 3] : List ℤ) [1, 1, 1]] [] none) ∧
    Analyzer.init (α := ℤ)
        (.game (Game.mk [Die.mk ([1, 2, 3] : List ℤ) [1, 1, 1]] [] none)) =
      .error .attrError ∧
    PyErr.attrError ≠ PyErr.valueError :=
  ⟨by rfl, by rfl, by decide⟩

/-- C4 (amended): a non-`Game` argument fails with `ValueError`
(the spec's `ValidationError`); a `Game` on which `play` has never been
called fails too, but with `AttributeError` (its `times` attribute is
missing), not `ValueError`. -/
theorem c4_analyzer_requires_played_session (g : Game α)
    (hd : g.dice_list ≠ []) (ht : g.times = none) :
    Analyzer.init (.game g) = .error .attrError ∧
    Analyzer.init (α := α) .notGame = .error .valueError := by
  constructor
  · cases hdl : g.dice_list with
    | nil => exact absurd hdl hd
    | cons d rest =>
      simp [Analyzer.init, Game.get_dice_faces, Game.get_event_number, hdl, ht]
  · rfl

theorem c4_analyzer_requires_played_session_witness :
    ((Game.mk [Die.mk ([1, 2, 3] : List ℤ) [1, 1, 1]] [] none).dice_list ≠ [] ∧
      (Game.mk [Die.mk ([1, 2, 3] : List ℤ) [1, 1, 1]] [] none).times = none) ∧
    (Analyzer.init
        (.game (Game.mk [Die.mk ([1, 2, 3] : List ℤ) [1, 1, 1]] [] none)) =
      .error .attrError ∧
    Analyzer.init (α := ℤ) .notGame = .error .valueError) :=
  ⟨⟨by decide, rfl⟩,
    c4_analyzer_requires_played_session
      (Game.mk [Die.mk ([1, 2, 3] : List ℤ) [1, 1, 1]] [] none) (by decide) rfl⟩

/-- `event.value_counts().get(x, 0)`: the number of entries of a row
equal to `x`. -/
def occCount [DecidableEq α] (x : α) : List α → Nat
  | [] => 0
  | y :: t => (if y = x then 1 else 0) + occCount x t

/-- `row.nunique()`: the number of distinct values in a row. -/
def nuniqueRow [DecidableEq α] (row : List α) : Nat := row.dedup.length

/-- The boolean Series `self.results.nunique(axis=1) == 1` that
`jackpot` computes and stores into `self.jackpot`. -/
def Analyzer.jackpot_flags [DecidableEq α] (a : Analyzer α) : List Bool :=
  a.results.map (fun row => decide (nuniqueRow row = 1))

/-- `sum(self.jackpot)`: the number of `True` entries, i.e. the value
the first `jackpot()` call returns. -/
def Analyzer.jackpot_count [DecidableEq α] (a : Analyzer α) : Nat :=
  a.jackpot_flags.count true

/-- `self.face_counter`: one row per round label `1..event_number`
(0-based here), one column per die face, each cell
`counts.get(col, 0)`. -/
def Analyzer.face_count [DecidableEq α] (a : Analyzer α) : List (List Nat) :=
  (List.range a.event_number).map (fun r =>
    a.faces.map (fun f => occCount f (a.results.getD r [])))

/-- `tuple(x)` on a result row: the outcome sequence in die order. -/
def permutationKey (row : List α) : List α := row

/-- `tuple(sorted(x))` on a result row: the outcomes sorted. -/
def comboKey [LinearOrder α] (row : List α) : List α :=
  row.insertionSort (· ≤ ·)

/-- `value_counts()` of a key Series: each distinct key with its
multiplicity.  (pandas orders by descending count; no claim here
depends on the order of this table.) -/
def valueCounts {K : Type} [DecidableEq K] (l : List K) : List (K × Nat) :=
  l.dedup.map (fun k => (k, occCount k l))

/-- `Analyzer.combo_count()`: counts of the sorted row tuples. -/
def Analyzer.combo_count [DecidableEq α] [LinearOrder α] (a : Analyzer α) :
    List (List α × Nat) :=
  valueCounts (a.results.map comboKey)

/-- `Analyzer.permutation_count()`: counts of the row tuples in die
order. -/
def Analyzer.permutation_count [DecidableEq α] (a : Analyzer α) :
    List (List α × Nat) :=
  valueCounts (a.results.map permutationKey)

/-- The total of the `Count` column of a counts table. -/
def countTotal {K : Type} (t : List (K × Nat)) : Nat := (t.map Prod.snd).sum

theorem sum_map_add_nat {K : Type} (f g : K → ℕ) :
    ∀ ks : List K, (ks.map fun k => f k + g k).sum = (ks.map f).sum + (ks.map g).sum
  | [] => rfl
  | k :: ks => by
    simp only [List.map_cons, List.sum_cons, sum_map_add_nat f g ks]
    omega

theorem sum_map_indicator_of_not_mem {K : Type} [DecidableEq K] (c : K) :
    ∀ ks : List K, c ∉ ks →
      ((ks.map fun k => if c = k then (1 : ℕ) else 0).sum = 0)
  | [], _ => rfl
  | k :: ks, h => by
    have hne : c ≠ k := fun e => h (e ▸ List.mem_cons_self k ks)
    have hni : c ∉ ks := fun e => h (List.mem_cons_of_mem _ e)
    simp [hne, sum_map_indicator_of_not_mem c ks hni]

theorem sum_map_indicator_of_nodup {K : Type} [DecidableEq K] (c : K) :
    ∀ ks : List K, ks.Nodup → c ∈ ks →
      ((ks.map fun k => if c = k then (1 : ℕ) else 0).sum = 1)
  | [], _, hmem => absurd hmem (List.not_mem_nil c)
  | k :: ks, hnd, hmem => by
    rcases List.mem_cons.mp hmem with h | h
    · subst h
      have hni : c ∉ ks := (List.nodup_cons.mp hnd).1
      simp [sum_map_indicator_of_not_mem c ks hni]
    · have hne : c ≠ k := by
        rintro rfl
        exact (List.nodup_cons.mp hnd).1 h
      simp [hne, sum_map_indicator_of_nodup c ks (List.nodup_cons.mp hnd).2 h]

/-- Summing the per-key occurrence counts over a duplicate-free key
list covering every element gives the list's length. -/
theorem sum_occCount_eq_length [DecidableEq α] (ks : List α) (hnd : ks.Nodup) :
    ∀ l : List α, (∀ x ∈ l, x ∈ ks) →
      ((ks.map fun k => occCount k l).sum = l.length)
  | [], _ => by simp [occCount]
  | c :: t, hsub => by
    have hc : c ∈ ks := hsub c (List.mem_cons_self c t)
    have ht : ∀ x ∈ t, x ∈ ks := fun x hx => hsub x (List.mem_cons_of_mem _ hx)
    calc ((ks.map fun k => occCount k (c :: t)).sum)
        = (ks.map fun k => (if c = k then 1 else 0) + occCount k t).sum := by
          simp only [occCount]
      _ = (ks.map fun k => if c = k then 1 else 0).sum +
            (ks.map fun k => occCount k t).sum := sum_map_add_nat _ _ ks
      _ = 1 + t.length := by
          rw [sum_map_indicator_of_nodup c ks hnd hc,
            sum_occCount_eq_length ks hnd t ht]
      _ = (c :: t).length := by simp [Nat.add_comm]

theorem countTotal_valueCounts {K : Type} [DecidableEq K] (l : List K) :
    countTotal (valueCounts l) = l.length := by
  unfold countTotal valueCounts
  rw [List.map_map]
  have hcomp : (Prod.snd ∘ fun k => (k, occCount k l)) = fun k => occCount k l := rfl
  rw [hcomp]
  exact sum_occCount_eq_length l.dedup (List.nodup_dedup l) l
    (fun x hx => List.mem_dedup.mpr hx)

theorem count_true_map_eq_countP {β : Type} (p : β → Bool) :
    ∀ l : List β, ((l.map p).count true = l.countP p)
  | [] => rfl
  | b :: t => by
    cases hb : p b <;>
      simp [List.count_cons, List.countP_cons, hb, count_true_map_eq_countP p t]

/-- The spec-side jackpot predicate: every outcome of the (nonempty)
round equals the first one. -/
def allIdenticalB [DecidableEq α] : List α → Bool
  | [] => false
  | a :: t => t.all (fun x => decide (x = a))

theorem eq_singleton_of_forall_eq [DecidableEq α] (a : α) :
    ∀ l : List α, l.Nodup → a ∈ l → (∀ x ∈ l, x = a) → l = [a]
  | [], _, ha, _ => absurd ha (List.not_mem_nil a)
  | b :: t, hnd, _, hall => by
    have hb : b = a := hall b (List.mem_cons_self b t)
    subst hb
    cases t with
    | nil => rfl
    | cons c t' =>
      have hc : c = b := hall c (List.mem_cons_of_mem _ (List.mem_cons_self c t'))
      have hmem : b ∈ c :: t' := by rw [← hc]; exact List.mem_cons_self c t'
      exact absurd hmem (List.nodup_cons.mp hnd).1

theorem nunique_eq_one_iff [DecidableEq α] (row : List α) :
    nuniqueRow row = 1 ↔ allIdenticalB row = true := by
  cases row with
  | nil => simp [nuniqueRow, allIdenticalB]
  | cons a t =>
    constructor
    · intro h
      obtain ⟨b, hb⟩ := List.length_eq_one.mp h
      have hmem : ∀ x ∈ a :: t, x = b := by
        intro x hx
        have hx' : x ∈ (a :: t).dedup := List.mem_dedup.mpr hx
        rw [hb] at hx'
        simpa using hx'
      have ha : a = b := hmem a (List.mem_cons_self a t)
      simp only [allIdenticalB, List.all_eq_true]
      intro x hx
      have hx' : x = a := (hmem x (List.mem_cons_of_mem _ hx)).trans ha.symm
      simp [hx']
    · intro h
      simp only [allIdenticalB, List.all_eq_true] at h
      have hall : ∀ x ∈ a :: t, x = a := by
        intro x hx
        rcases List.mem_cons.mp hx with h' | hx'
        · exact h'
        · simpa using h x hx'
      have hded : (a :: t).dedup = [a] :=
        eq_singleton_of_forall_eq a _ (List.nodup_dedup _)
          (List.mem_dedup.mpr (List.mem_cons_self a t))
          (fun x hx => hall x (List.mem_dedup.mp hx))
      simp [nuniqueRow, hded]

/-- C1: `jackpot()` returns the number of rounds whose row has exactly
one distinct value — equivalently, all outcomes identical — and with a
single generator every round counts, so the result is the round
count. -/
theorem c1_jackpot_counts_identical_rounds [DecidableEq α] (a : Analyzer α) :
    a.jackpot_count = a.results.countP (fun row => allIdenticalB row) ∧
    ((∀ row ∈ a.results, row.length = 1) →
      a.jackpot_count = a.results.length) := by
  have hcnt : a.jackpot_count =
      a.results.countP (fun row => decide (nuniqueRow row = 1)) :=
    count_true_map_eq_countP _ _
  have hpt : ∀ row ∈ a.results,
      (decide (nuniqueRow row = 1) = true ↔ allIdenticalB row = true) := by
    intro row _
    simp [nunique_eq_one_iff]
  constructor
  · rw [hcnt]
    exact List.countP_congr hpt
  · intro hlen
    rw [hcnt]
    rw [List.countP_eq_length]
    intro row hrow
    obtain ⟨x, hx⟩ := List.length_eq_one.mp (hlen row hrow)
    simp [hx, nuniqueRow]

theorem c1_jackpot_counts_identical_rounds_witness :
    (∀ row ∈ (Analyzer.mk ([[1], [2]] : List (List ℤ)) [1, 2] 2 none none).results,
      row.length = 1) ∧
    ((Analyzer.mk ([[1], [2]] : List (List ℤ)) [1, 2] 2 none none).jackpot_count =
      (Analyzer.mk ([[1], [2]] : List (List ℤ)) [1, 2] 2 none none).results.countP
        (fun row => allIdenticalB row) ∧
    ((∀ row ∈ (Analyzer.mk ([[1], [2]] : List (List ℤ)) [1, 2] 2 none none).results,
        row.length = 1) →
      (Analyzer.mk ([[1], [2]] : List (List ℤ)) [1, 2] 2 none none).jackpot_count =
        (Analyzer.mk ([[1], [2]] : List (List ℤ)) [1, 2] 2 none
          none).results.length)) :=
  ⟨by decide,
    c1_jackpot_counts_identical_rounds
      (Analyzer.mk ([[1], [2]] : List (List ℤ)) [1, 2] 2 none none)⟩

/-- Inversion of a successful `Analyzer.__init__`: the snapshot fields
are the game's table (copied), the first die's faces, and the stored
round count. -/
theorem analyzer_init_ok_inv (g : Game α) (a : Analyzer α)
    (h : Analyzer.init (.game g) = .ok a) :
    a.results = g.play_df ∧
    (∃ n, g.times = some n ∧ a.event_number = n) ∧
    (∃ d rest, g.dice_list = d :: rest ∧ a.faces = d.faces) ∧
    a.jackpotBound = none := by
  cases hdl : g.dice_list with
  | nil => simp [Analyzer.init, Game.get_dice_faces, hdl] at h
  | cons d rest =>
    cases ht : g.times with
    | none =>
      simp [Analyzer.init, Game.get_dice_faces, Game.get_event_number, hdl,
        ht] at h
    | some n =>
      simp only [Analyzer.init, Game.show_results_wide, Game.get_dice_faces,
        Game.get_event_number, hdl, ht, Except.ok.injEq] at h
      subst h
      exact ⟨rfl, ⟨n, rfl, rfl⟩, ⟨d, rest, rfl, rfl⟩, rfl⟩

theorem play_ok_fields [Inhabited α] (g g' : Game α) (n : ℤ) (hn : 0 < n)
    (pick : Nat → Nat → Nat) (hplay : g.play (.int n) pick = (g', none)) :
    g'.play_df.length = n.toNat ∧ g'.times = some n.toNat ∧
    g'.dice_list = g.dice_list := by
  have hnot : ¬ n ≤ 0 := not_le.mpr hn
  have h1 : g' = (g.play (.int n) pick).1 := by rw [hplay]
  subst h1
  refine ⟨by simp [Game.play, hnot], by simp [Game.play, hnot],
    by simp [Game.play, hnot]⟩

/-- Every row of a freshly played table has one cell per die, each cell
a member of every die's face list (in particular of the shared label
set), provided the game was constructed by `Game.__init__` and its dice
have nonempty face lists. -/
theorem play_rows_shape [DecidableEq α] [Inhabited α]
    (items : List (DiceElem α)) (g : Game α)
    (hinit : Game.init (.list items) = .ok g)
    (hne : ∀ d ∈ g.dice_list, d.faces ≠ [])
    (n : ℤ) (hn : 0 < n) (pick : Nat → Nat → Nat) :
    ∀ row ∈ (g.play (.int n) pick).1.play_df,
      row.length = g.dice_list.length ∧
      ∀ c ∈ row, ∀ d ∈ g.dice_list, c ∈ d.faces := by
  have hnot : ¬ n ≤ 0 := not_le.mpr hn
  intro row hrow
  simp only [Game.play, hnot, if_false] at hrow
  simp only [List.mem_map, List.mem_range] at hrow
  obtain ⟨r, hr, hrow⟩ := hrow
  constructor
  · simp [← hrow]
  · intro c hc d hd
    rw [← hrow] at hc
    simp only [List.mem_map] at hc
    obtain ⟨col, hcol, hcell⟩ := hc
    obtain ⟨p, hp, hcoldef⟩ := hcol
    obtain ⟨i, pd⟩ := p
    have hget := List.mk_mem_enum_iff_getElem?.mp hp
    have hpd : pd ∈ g.dice_list := by
      obtain ⟨hlt, heq⟩ := List.getElem?_eq_some.mp hget
      exact heq ▸ List.getElem_mem hlt
    have hcol_r : col.getD r default = pd.drawAt (pick i r) := by
      rw [← hcoldef, Die.rollList]
      exact getD_map_range _ _ hr
    have hmem : col.getD r default ∈ pd.faces := by
      rw [hcol_r]
      exact drawAt_mem _ _ (hne _ hpd)
    rw [hcell] at hmem
    exact game_init_shared_faces items g hinit pd hpd d hd c hmem

/-- C2: for an analyzer over a session played `n` rounds, both tally
tables' `Count` columns total `n`, and sorting any round's permutation
key yields that round's combo key. -/
theorem c2_tally_totals [DecidableEq α] [LinearOrder α] [Inhabited α]
    (g g' : Game α) (n : ℤ) (hn : 0 < n) (pick : Nat → Nat → Nat)
    (hplay : g.play (.int n) pick = (g', none))
    (a : Analyzer α) (hainit : Analyzer.init (.game g') = .ok a) :
    countTotal a.combo_count = n.toNat ∧
    countTotal a.permutation_count = n.toNat ∧
    (∀ row ∈ a.results,
      (permutationKey row).insertionSort (fun x y => x ≤ y) = comboKey row) := by
  obtain ⟨hres, _, _, _⟩ := analyzer_init_ok_inv g' a hainit
  obtain ⟨hlen, _, _⟩ := play_ok_fields g g' n hn pick hplay
  have hrlen : a.results.length = n.toNat := by rw [hres, hlen]
  refine ⟨?_, ?_, fun row _ => rfl⟩
  · rw [Analyzer.combo_count, countTotal_valueCounts, List.length_map, hrlen]
  · rw [Analyzer.permutation_count, countTotal_valueCounts, List.length_map,
      hrlen]

theorem c2_tally_totals_witness :
    ((0 : ℤ) < 2 ∧
      (Game.mk [Die.mk ([1, 2] : List ℤ) [1, 1], Die.mk [2, 1] [1, 1]] [] none).play
          (.int 2) (fun _ _ => 0) =
        (Game.mk [Die.mk ([1, 2] : List ℤ) [1, 1], Die.mk [2, 1] [1, 1]]
          [[1, 2], [1, 2]] (some 2), none) ∧
      Analyzer.init (.game (Game.mk [Die.mk ([1, 2] : List ℤ) [1, 1],
          Die.mk [2, 1] [1, 1]] [[1, 2], [1, 2]] (some 2))) =
        .ok (Analyzer.mk ([[1, 2], [1, 2]] : List (List ℤ)) [1, 2] 2 none none)) ∧
    (countTotal (Analyzer.mk ([[1, 2], [1, 2]] : List (List ℤ)) [1, 2] 2 none
        none).combo_count = (2 : ℤ).toNat ∧
    countTotal (Analyzer.mk ([[1, 2], [1, 2]] : List (List ℤ)) [1, 2] 2 none
        none).permutation_count = (2 : ℤ).toNat ∧
    (∀ row ∈ (Analyzer.mk ([[1, 2], [1, 2]] : List (List ℤ)) [1, 2] 2 none
        none).results,
      (permutationKey row).insertionSort (fun x y => x ≤ y) = comboKey row)) :=
  ⟨⟨by decide, by rfl, by rfl⟩,
    c2_tally_totals
      (Game.mk [Die.mk ([1, 2] : List ℤ) [1, 1], Die.mk [2, 1] [1, 1]] [] none)
      (Game.mk [Die.mk ([1, 2] : List ℤ) [1, 1], Die.mk [2, 1] [1, 1]]
        [[1, 2], [1, 2]] (some 2))
      2 (by decide) (fun _ _ => 0) (by rfl)
      (Analyzer.mk ([[1, 2], [1, 2]] : List (List ℤ)) [1, 2] 2 none none)
      (by rfl)⟩

/-- C6: `face_count()` has one row per round and one column per face of
the shared label set in face order; cell `(round, label)` counts the
dice showing that label in that round, so every row sums to the number
of dice. -/
theorem c6_face_count_shape [DecidableEq α] [Inhabited α]
    (items : List (DiceElem α)) (g g' : Game α)
    (hginit : Game.init (.list items) = .ok g)
    (hne : ∀ d ∈ g.dice_list, d.faces ≠ [])
    (hnodup : ∀ d ∈ g.dice_list, d.faces.Nodup)
    (n : ℤ) (hn : 0 < n) (pick : Nat → Nat → Nat)
    (hplay : g.play (.int n) pick = (g', none))
    (a : Analyzer α) (hainit : Analyzer.init (.game g') = .ok a) :
    a.face_count.length = n.toNat ∧
    (∀ r, r < a.event_number →
      a.face_count.getD r [] =
        a.faces.map (fun f => occCount f (a.results.getD r []))) ∧
    (∀ counts ∈ a.face_count, counts.sum = g.dice_list.length) := by
  obtain ⟨hres, ⟨m, hm, hev⟩, ⟨d0, rest, hdl, hfc⟩, _⟩ :=
    analyzer_init_ok_inv g' a hainit
  obtain ⟨hlen, htimes, hdice⟩ := play_ok_fields g g' n hn pick hplay
  have hm' : m = n.toNat := by
    rw [hm] at htimes
    exact Option.some.inj htimes
  have hev' : a.event_number = n.toNat := hev.trans hm'
  have hrows := play_rows_shape items g hginit hne n hn pick
  have hplay1 : (g.play (.int n) pick).1 = g' := by rw [hplay]
  refine ⟨by simp [Analyzer.face_count, hev'], ?_, ?_⟩
  · intro r hr
    rw [Analyzer.face_count]
    exact getD_map_range _ _ hr
  · intro counts hcounts
    rw [Analyzer.face_count] at hcounts
    simp only [List.mem_map, List.mem_range] at hcounts
    obtain ⟨r, hr, hcounts⟩ := hcounts
    rw [hev'] at hr
    have hrlen : r < a.results.length := by rw [hres, hlen]; exact hr
    have hrowmem : a.results.getD r [] ∈ a.results := by
      rw [List.getD_eq_getElem?_getD, List.getElem?_eq_getElem hrlen]
      simp only [Option.getD_some]
      exact List.getElem_mem hrlen
    have hrow' : a.results.getD r [] ∈ (g.play (.int n) pick).1.play_df := by
      rw [hplay1, ← hres]
      exact hrowmem
    obtain ⟨hrl, hcells⟩ := hrows _ hrow'
    have hd0 : d0 ∈ g.dice_list := by
      rw [← hdice, hdl]
      exact List.mem_cons_self d0 rest
    have hsub : ∀ x ∈ a.results.getD r [], x ∈ a.faces := by
      intro x hx
      rw [hfc]
      exact hcells x hx d0 hd0
    have hfnd : a.faces.Nodup := by
      rw [hfc]
      exact hnodup d0 hd0
    rw [← hcounts]
    calc (a.faces.map (fun f => occCount f (a.results.getD r []))).sum
        = (a.results.getD r []).length :=
          sum_occCount_eq_length a.faces hfnd _ hsub
      _ = g.dice_list.length := hrl

theorem c6_face_count_shape_witness :
    ((0 : ℤ) < 2 ∧
      (Game.mk [Die.mk ([1, 2] : List ℤ) [1, 1], Die.mk [2, 1] [1, 1]] [] none).play
          (.int 2) (fun _ _ => 1) =
        (Game.mk [Die.mk ([1, 2] : List ℤ) [1, 1], Die.mk [2, 1] [1, 1]]
          [[2, 1], [2, 1]] (some 2), none) ∧
      Analyzer.init (.game (Game.mk [Die.mk ([1, 2] : List ℤ) [1, 1],
          Die.mk [2, 1] [1, 1]] [[2, 1], [2, 1]] (some 2))) =
        .ok (Analyzer.mk ([[2, 1], [2, 1]] : List (List ℤ)) [1, 2] 2 none none)) ∧
    ((Analyzer.mk ([[2, 1], [2, 1]] : List (List ℤ)) [1, 2] 2 none
        none).face_count.length = (2 : ℤ).toNat ∧
    (∀ r, r < (Analyzer.mk ([[2, 1], [2, 1]] : List (List ℤ)) [1, 2] 2 none
        none).event_number →
      (Analyzer.mk ([[2, 1], [2, 1]] : List (List ℤ)) [1, 2] 2 none
          none).face_count.getD r [] =
        (Analyzer.mk ([[2, 1], [2, 1]] : List (List ℤ)) [1, 2] 2 none
            none).faces.map (fun f =>
          occCount f ((Analyzer.mk ([[2, 1], [2, 1]] : List (List ℤ)) [1, 2] 2
              none none).results.getD r []))) ∧
    (∀ counts ∈ (Analyzer.mk ([[2, 1], [2, 1]] : List (List ℤ)) [1, 2] 2 none
        none).face_count,
      counts.sum = (Game.mk [Die.mk ([1, 2] : List ℤ) [1, 1],
          Die.mk [2, 1] [1, 1]] [] none).dice_list.length)) :=
  ⟨⟨by decide, by rfl, by rfl⟩,
    c6_face_count_shape
      [.die (Die.mk ([1, 2] : List ℤ) [1, 1]), .die (Die.mk [2, 1] [1, 1])]
      (Game.mk [Die.mk ([1, 2] : List ℤ) [1, 1], Die.mk [2, 1] [1, 1]] [] none)
      (Game.mk [Die.mk ([1, 2] : List ℤ) [1, 1], Die.mk [2, 1] [1, 1]]
        [[2, 1], [2, 1]] (some 2))
      (by rfl) (by decide) (by decide) 2 (by decide) (fun _ _ => 1) (by rfl)
      (Analyzer.mk ([[2, 1], [2, 1]] : List (List ℤ)) [1, 2] 2 none none)
      (by rfl)⟩

/-- The call `analyzer.jackpot()` with Python attribute dispatch: the
first call runs the method, which REBINDS `self.jackpot` from the bound
method to the computed boolean Series and returns the count; once the
instance attribute exists, attribute lookup yields the Series, and
calling a Series raises `TypeError` (not callable). -/
def Analyzer.call_jackpot [DecidableEq α] (a : Analyzer α) :
    Except PyErr (Nat × Analyzer α) :=
  match a.jackpotBound with
  | some _ => .error .typeError
  | none =>
    .ok (a.jackpot_count, { a with jackpotBound := some a.jackpot_flags })

/-- The call `analyzer.face_count()`: stores `self.face_counter` (a
DIFFERENT name, so the method stays callable) and returns the table. -/
def Analyzer.call_face_count [DecidableEq α] (a : Analyzer α) :
    List (List Nat) × Analyzer α :=
  (a.face_count, { a with face_counterBound := some a.face_count })

/-- The call `analyzer.combo_count()`: binds only locals, no instance
attribute changes. -/
def Analyzer.call_combo_count [DecidableEq α] [LinearOrder α] (a : Analyzer α) :
    List (List α × Nat) × Analyzer α :=
  (a.combo_count, a)

/-- The call `analyzer.permutation_count()`: binds only locals, no
instance attribute changes. -/
def Analyzer.call_permutation_count [DecidableEq α] (a : Analyzer α) :
    List (List α × Nat) × Analyzer α :=
  (a.permutation_count, a)

/-- C10: on a fresh analyzer the first `jackpot()` call returns the
count, the second raises `TypeError` because the attribute now shadows
the method; `face_count`, `combo_count` and `permutation_count` keep
returning their values (repeatedly) after the jackpot calls. -/
theorem c10_jackpot_not_repeatable [DecidableEq α] [LinearOrder α]
    (a : Analyzer α) (h : a.jackpotBound = none) :
    ∃ a', a.call_jackpot = .ok (a.jackpot_count, a') ∧
      a'.call_jackpot = .error .typeError ∧
      a'.call_face_count.1 = a.call_face_count.1 ∧
      (a'.call_face_count.2).call_face_count.1 = a.call_face_count.1 ∧
      a'.call_combo_count.1 = a.call_combo_count.1 ∧
      (a'.call_combo_count.2).call_combo_count.1 = a.call_combo_count.1 ∧
      a'.call_permutation_count.1 = a.call_permutation_count.1 ∧
      (a'.call_permutation_count.2).call_permutation_count.1 =
        a.call_permutation_count.1 := by
  refine ⟨{ a with jackpotBound := some a.jackpot_flags }, ?_, rfl, rfl, rfl,
    rfl, rfl, rfl, rfl⟩
  rw [Analyzer.call_jackpot, h]

theorem c10_jackpot_not_repeatable_witness :
    (Analyzer.mk ([[1, 1], [1, 2]] : List (List ℤ)) [1, 2] 2 none
        none).jackpotBound = none ∧
    (∃ a', (Analyzer.mk ([[1, 1], [1, 2]] : List (List ℤ)) [1, 2] 2 none
          none).call_jackpot =
        .ok ((Analyzer.mk ([[1, 1], [1, 2]] : List (List ℤ)) [1, 2] 2 none
          none).jackpot_count, a') ∧
      a'.call_jackpot = .error .typeError ∧
      a'.call_face_count.1 = (Analyzer.mk ([[1, 1], [1, 2]] : List (List ℤ))
          [1, 2] 2 none none).call_face_count.1 ∧
      (a'.call_face_count.2).call_face_count.1 =
        (Analyzer.mk ([[1, 1], [1, 2]] : List (List ℤ)) [1, 2] 2 none
          none).call_face_count.1 ∧
      a'.call_combo_count.1 = (Analyzer.mk ([[1, 1], [1, 2]] : List (List ℤ))
          [1, 2] 2 none none).call_combo_count.1 ∧
      (a'.call_combo_count.2).call_combo_count.1 =
        (Analyzer.mk ([[1, 1], [1, 2]] : List (List ℤ)) [1, 2] 2 none
          none).call_combo_count.1 ∧
      a'.call_permutation_count.1 =
        (Analyzer.mk ([[1, 1], [1, 2]] : List (List ℤ)) [1, 2] 2 none
          none).call_permutation_count.1 ∧
      (a'.call_permutation_count.2).call_permutation_count.1 =
        (Analyzer.mk ([[1, 1], [1, 2]] : List (List ℤ)) [1, 2] 2 none
          none).call_permutation_count.1) :=
  ⟨rfl, c10_jackpot_not_repeatable
    (Analyzer.mk ([[1, 1], [1, 2]] : List (List ℤ)) [1, 2] 2 none none) rfl⟩

/-!
Object-identity model for the aliasing claim.  The pure model above
uses value semantics; to settle whether the analyzer's snapshot is a
construction-time copy rather than a live reference, DataFrame objects
are placed in an explicit heap of cells and the game/analyzer hold
references into it.
-/

/-- A heap of pandas DataFrame objects. -/
structure DFHeap (α : Type) where
  cells : List (List (List α))

/-- Allocating a fresh DataFrame object. -/
def DFHeap.alloc (h : DFHeap α) (t : List (List α)) : DFHeap α × Nat :=
  (⟨h.cells ++ [t]⟩, h.cells.length)

/-- Dereferencing a DataFrame object. -/
def DFHeap.read (h : DFHeap α) (r : Nat) : List (List α) := h.cells.getD r []

/-- `Game` with its `__play_df` attribute as a heap reference. -/
structure GameObj (α : Type) where
  dice_list : List (Die α)
  tableRef : Nat
  times : Option Nat

/-- The wide table `play` builds (column `i` is die `i`'s `roll_time`
list; the rows of that column-assembled frame). -/
def buildTable [Inhabited α] (dice : List (Die α)) (n : Nat)
    (pick : Nat → Nat → Nat) : List (List α) :=
  let cols := dice.enum.map (fun p => p.2.rollList n (pick p.1))
  (List.range n).map (fun r => cols.map (fun c => c.getD r default))

/-- `show_results(1)` at object level: `return self.__play_df.copy()` —
a FRESH DataFrame with the current contents is allocated and its
reference returned. -/
def GameObj.show_results_copy (g : GameObj α) (h : DFHeap α) :
    DFHeap α × Nat :=
  h.alloc (h.read g.tableRef)

/-- `play` at object level (validation already passed, cf. C5):
`self.__play_df = pd.DataFrame()` rebinds the attribute to a freshly
allocated object which the loop then fills; the old DataFrame cell is
never written again. -/
def GameObj.playObj [Inhabited α] (g : GameObj α) (h : DFHeap α) (n : Nat)
    (pick : Nat → Nat → Nat) : DFHeap α × GameObj α :=
  let res := h.alloc (buildTable g.dice_list n pick)
  (res.1, { g with tableRef := res.2, times := some n })

/-- `Analyzer` with its `results` snapshot as a heap reference. -/
structure AnalyzerObj (α : Type) where
  resultsRef : Nat
  faces : List α
  event_number : Nat

/-- `Analyzer.__init__` at object level for an already-played game:
`self.results = game.show_results(1)` stores the reference to the fresh
copy. -/
def GameObj.initObj (g : GameObj α) (h : DFHeap α) :
    DFHeap α × AnalyzerObj α :=
  let res := g.show_results_copy h
  (res.1, ⟨res.2, (g.dice_list.headD (Die.mk [] [])).faces, g.times.getD 0⟩)

theorem getD_append_left {β : Type} (l l' : List β) (d : β) {i : Nat}
    (hi : i < l.length) : (l ++ l').getD i d = l.getD i d := by
  rw [List.getD_eq_getElem?_getD, List.getD_eq_getElem?_getD,
    List.getElem?_append]
  simp [hi]

theorem getD_concat_length {β : Type} (l : List β) (a d : β) :
    (l ++ [a]).getD l.length d = a := by
  rw [List.getD_eq_getElem?_getD]
  have : (l ++ [a])[l.length]? = some a := by
    rw [List.getElem?_append_right (Nat.le_refl _)]
    simp
  rw [this]
  rfl

/-- C3: replaying the session after the analyzer was constructed leaves
the analyzer's snapshot untouched: the post-replay dereference of the
analyzer's `results` reference still yields the construction-time table,
the game now points at a different object, and hence any statistic
computed from the snapshot (e.g. the jackpot count) is unchanged. -/
theorem c3_snapshot_survives_replay [DecidableEq α] [Inhabited α]
    (h : DFHeap α) (g : GameObj α) (n : Nat) (pick : Nat → Nat → Nat) :
    ((g.playObj (g.initObj h).1 n pick).1).read (g.initObj h).2.resultsRef =
      h.read g.tableRef ∧
    (g.initObj h).2.resultsRef ≠ ((g.playObj (g.initObj h).1 n pick).2).tableRef ∧
    (∀ (fs : List α) (m : Nat),
      Analyzer.jackpot_count
          ⟨((g.playObj (g.initObj h).1 n pick).1).read
            (g.initObj h).2.resultsRef, fs, m, none, none⟩ =
        Analyzer.jackpot_count ⟨h.read g.tableRef, fs, m, none, none⟩) := by
  have hread : ((g.playObj (g.initObj h).1 n pick).1).read
      (g.initObj h).2.resultsRef = h.read g.tableRef := by
    show ((h.cells ++ [h.read g.tableRef]) ++
        [buildTable g.dice_list n pick]).getD h.cells.length [] =
      h.read g.tableRef
    rw [getD_append_left _ _ _ (by simp), getD_concat_length]
  refine ⟨hread, ?_, ?_⟩
  · show h.cells.length ≠ (h.cells ++ [h.read g.tableRef]).length
    simp
  · intro fs m
    rw [hread]

end MC
